import Mathlib

set_option maxHeartbeats 1000000

/-!
Shallow embedding of the overlyx git hooks.

The embedded program is `src/hooks/post-merge.py` (classes `GitProcessor`,
function `main`) together with `src/hooks/pre-commit.py` (`LyXProcessor`).
External commands (git, tex2lyx, lyx, gawk) are modelled by a small git
state machine plus an environment record that fixes the outcome of each
fallible external command for one `process_file` invocation.  Every
executed command is recorded in an append-only log, mirroring the RunLog.
-/

/-- Python's substring test `needle in haystack` (used by the discovery
filter in `main`, post-merge.py line 190). -/
def leadsWith : List Char → List Char → Bool
  | [], _ => true
  | _ :: _, [] => false
  | a :: as, b :: bs => a == b && leadsWith as bs

def containsSub (needle hay : String) : Bool :=
  hay.data.tails.any (fun t => leadsWith needle.data t)

/-- Line matches the gawk regex for the opening document marker
(`/\begin{document}/`, an unanchored containment test). -/
def matchesBegin (l : String) : Bool := containsSub "\\begin{document}" l

/-- Line matches the gawk regex for the closing document marker. -/
def matchesEnd (l : String) : Bool := containsSub "\\end{document}" l

/-- Line matches the anchored gawk regex `/^\include/`. -/
def matchesInclude (l : String) : Bool := leadsWith "\\include".data l.data

/-- The gawk program of post-merge.py lines 126-130 (identical to
pre-commit.py lines 94-98): range pattern
`/\begin{document}/,/\end{document}/` with action
`if (!/\begin{document}/ && !/\end{document}/ && !/^\include/) print`.
The Bool argument is the gawk range state (inside the range or not). -/
def stripGo : Bool → List String → List String
  | _, [] => []
  | false, l :: ls =>
      if matchesBegin l then
        (if matchesEnd l then stripGo false ls else stripGo true ls)
      else stripGo false ls
  | true, l :: ls =>
      let rest := if matchesEnd l then stripGo false ls else stripGo true ls
      if !(matchesBegin l) && !(matchesEnd l) && !(matchesInclude l) then l :: rest
      else rest

/-- The envelope-strip transform: gawk output redirected to temp_file.tex,
which then replaces the original via os.rename. -/
def stripEnvelope (lines : List String) : List String := stripGo false lines

/-- One entry of the run log: an external command or filesystem action
performed by the hooks. -/
inductive Eff where
  | startProcessing (f : String)
  | tex2lyxCmd (f : String)
  | gitAdd (p : String)
  | gitCommit (msg : String)
  | lyxExportCmd (f : String)
  | gawkStrip (f : String)
  | renameTmp (f : String)
  | gitStash
  | gitFetch
  | touchGate
  | gitMerge
  | revParseMergeHead
  | checkoutTheirs
  | gitStashPop
  | gitResetSoft
  | gitDiff (f : String)
  | checkoutOrigin (f : String)
  | unlinkGate
  deriving DecidableEq, Repr

/-- Outcome of `git merge -v --no-ff --no-verify origin/master` fixed by the
environment: a clean merge commit, an up-to-date no-op, a zero-exit merge
that still leaves MERGE_HEAD (the case lines 148-150 handle), or a non-zero
exit (which `run_command` turns into a CommandError). -/
inductive MergeOutcome where
  | clean (merged : List String)
  | upToDate
  | conflictZero (conflicted : List String)
  | failed
  deriving DecidableEq, Repr

/-- Behaviour of the fallible external commands during one
`process_file` call. -/
structure Env where
  tex2lyxOk : Bool
  lyxExportOk : Bool
  exportLines : List String
  stashOk : Bool
  fetchOk : Bool
  merge : MergeOutcome
  deriving Repr

/-- The git repository and filesystem state the hooks act on.
`reflog` is the HEAD reflog: entry 0 is the current HEAD position, each
entry being the set (list) of commit ids reachable from that position.
`commitMsgs` maps commit ids to their messages.  `texFiles` is the working
tree content of each .tex file, `lyxFiles` the set of existing .lyx files.
`gate` is the `.disable_hooks` marker file in the overlyx directory.
`remoteTex` is origin/master's version of each .tex file. -/
structure GitState where
  nextId : Nat
  reflog : List (List Nat)
  commitMsgs : List (Nat × String)
  texFiles : List (String × List String)
  lyxFiles : List String
  mergeHead : Bool
  gate : Bool
  remoteIds : List Nat
  remoteTex : List (String × List String)
  log : List Eff
  deriving Repr

/-- Commits reachable from the current HEAD. -/
def reachable (s : GitState) : List Nat := s.reflog.getD 0 []

def pushLog (e : Eff) (s : GitState) : GitState := { s with log := s.log ++ [e] }

def getTex : List (String × List String) → String → List String
  | [], _ => []
  | (g, w) :: rest, f => if g = f then w else getTex rest f

def setTex (f : String) (v : List String) : List (String × List String) → List (String × List String)
  | [] => [(f, v)]
  | (g, w) :: rest => if g = f then (f, v) :: rest else (g, w) :: setTex f v rest

def texNames (m : List (String × List String)) : List String := m.map Prod.fst

/-- Model of tex_file.with_suffix(".lyx"): drop the 4-character extension and
append `.lyx`. -/
def lyxOf (f : String) : String := String.mk (f.data.take (f.data.length - 4) ++ ".lyx".data)

/-- Model of lyx_file.with_suffix(".tex"). -/
def texOf (f : String) : String := String.mk (f.data.take (f.data.length - 4) ++ ".tex".data)

def backupMsg (f : String) : String := "[hook] Backup " ++ lyxOf f

def preMergeMsg (f : String) : String := "[hook] Pre-merge " ++ f

def mergeMsg : String := "[hook] Merge origin into local"

def acceptMsg : String := "[hook] Accept remote version"

/-- The run_command helper (post-merge.py lines 61-85): executes a command and, when
`check` is set and the exit code is non-zero, raises CommandError (the
`.error` case); with `check=False` it always returns the completed process. -/
def run_command (check : Bool) (exitCode : Nat) : Except Unit Nat :=
  if check && exitCode != 0 then .error () else .ok exitCode

/-- Exit code of `git rev-parse --verify MERGE_HEAD`: 0 when the ref
resolves, 128 ("fatal: Needed a single revision") when it does not. -/
def mergeHeadExit (s : GitState) : Nat := if s.mergeHead then 0 else 128

/-- GitProcessor.is_git_merging (lines 87-90): run the rev-parse probe
with `check=False, silent=True` and report `returncode == 0`. -/
def is_git_merging (s : GitState) : Except Unit Bool :=
  match run_command false (mergeHeadExit s) with
  | .error e => .error e
  | .ok code => .ok (code == 0)

/-- The Bool the call site at line 148 observes.  `is_git_merging` never
returns `.error` (proved below), so the `.error` arm is dead code. -/
def isGitMergingB (s : GitState) : Bool :=
  match is_git_merging s with
  | .ok b => b
  | .error _ => false

/-- A commit moves HEAD: it pushes a new reflog entry, records the message
and, when a merge was in progress, completes it (the new commit also
reaches the fetched remote commits and MERGE_HEAD is cleared). -/
def doCommit (msg : String) (s : GitState) : GitState :=
  let s := pushLog (.gitCommit msg) s
  { s with
      nextId := s.nextId + 1
      reflog := (s.nextId :: ((if s.mergeHead then s.remoteIds else []) ++ reachable s)) :: s.reflog
      commitMsgs := (s.nextId, msg) :: s.commitMsgs
      mergeHead := false }

/-- The command tex2lyx -f tex_file (lines 110 and 154): on success the .lyx file
exists afterwards; on failure a CommandError carries the state. -/
def tex2lyxCmd (env : Env) (f : String) (s : GitState) : Except GitState GitState :=
  let s := pushLog (.tex2lyxCmd f) s
  if env.tex2lyxOk then .ok { s with lyxFiles := s.lyxFiles.insert (lyxOf f) }
  else .error s

/-- The command lyx --export-to latex (line 122 and
pre-commit.py line 90): regenerates the .tex file from the .lyx file. -/
def lyxExportCmd (env : Env) (f : String) (s : GitState) : Except GitState GitState :=
  let s := pushLog (.lyxExportCmd f) s
  if env.lyxExportOk then .ok { s with texFiles := setTex f env.exportLines s.texFiles }
  else .error s

/-- gawk into temp_file.tex followed by `os.rename` (lines 126-131). -/
def applyStrip (f : String) (s : GitState) : GitState :=
  let s := pushLog (.gawkStrip f) s
  let s := pushLog (.renameTmp f) s
  { s with texFiles := setTex f (stripEnvelope (getTex s.texFiles f)) s.texFiles }

def gitStashCmd (env : Env) (s : GitState) : Except GitState GitState :=
  let s := pushLog .gitStash s
  if env.stashOk then .ok s else .error s

def gitFetchCmd (env : Env) (s : GitState) : Except GitState GitState :=
  let s := pushLog .gitFetch s
  if env.fetchOk then .ok s else .error s

def touchGate (s : GitState) : GitState :=
  let s := pushLog .touchGate s
  { s with gate := true }

def unlinkGate (s : GitState) : GitState :=
  let s := pushLog .unlinkGate s
  { s with gate := false }

/-- The command git merge -v --no-ff --no-verify origin/master (line 145).
A clean merge creates a merge commit reaching the remote commits and
writes the merged content; an up-to-date merge does nothing; a zero-exit
conflicted merge leaves MERGE_HEAD set and conflict markers in the tree;
a non-zero exit raises CommandError (MERGE_HEAD left behind). -/
def gitMergeCmd (env : Env) (f : String) (s : GitState) : Except GitState GitState :=
  let s := pushLog .gitMerge s
  match env.merge with
  | .clean merged =>
      .ok { s with
              texFiles := setTex f merged s.texFiles
              nextId := s.nextId + 1
              reflog := (s.nextId :: (s.remoteIds ++ reachable s)) :: s.reflog
              commitMsgs := (s.nextId, mergeMsg) :: s.commitMsgs
              mergeHead := false }
  | .upToDate => .ok s
  | .conflictZero conflicted =>
      .ok { s with mergeHead := true, texFiles := setTex f conflicted s.texFiles }
  | .failed => .error { s with mergeHead := true }

/-- The command git checkout --theirs . takes origin/master's version of every
conflicting path. -/
def theirsAll (remote tex : List (String × List String)) : List (String × List String) :=
  remote.foldl (fun acc p => setTex p.1 p.2 acc) tex

/-- GitProcessor.handle_merge_conflict (lines 92-98): checkout --theirs,
add everything, commit; returns True. -/
def handle_merge_conflict (s : GitState) : Bool × GitState :=
  let s := pushLog .checkoutTheirs s
  let s := { s with texFiles := theirsAll s.remoteTex s.texFiles }
  let s := pushLog (.gitAdd ".") s
  (true, doCommit acceptMsg s)

/-- Lines 106-114: if the .lyx file is missing, synthesize it with tex2lyx;
a converter failure is caught and reported as False. -/
def ensureRich (env : Env) (f : String) (s : GitState) : Except GitState GitState :=
  if lyxOf f ∈ s.lyxFiles then .ok s
  else tex2lyxCmd env f s

/-- Lines 118-119: `git add {lyx_file}` and the empty-allowed, no-verify
backup commit (Checkpoint 1). -/
def checkpointPre (f : String) (s : GitState) : GitState :=
  doCommit (backupMsg f) (pushLog (.gitAdd (lyxOf f)) s)

/-- Lines 122-131: regenerate the .tex from the .lyx and, for every file
other than main.tex, strip the document envelope. -/
def exportPhase (env : Env) (f : String) (s : GitState) : Except GitState GitState :=
  match lyxExportCmd env f s with
  | .error t => .error t
  | .ok s => .ok (if f ≠ "main.tex" then applyStrip f s else s)

/-- Lines 134-135: `git add {tex_file}` and the pre-merge commit
(Checkpoint 2). -/
def checkpointPost (f : String) (s : GitState) : GitState :=
  doCommit (preMergeMsg f) (pushLog (.gitAdd f) s)

/-- Lines 118-137: both checkpoints, the export transform, the stash and
the fetch -- everything inside the outer try before the gate is taken. -/
def afterFetch (env : Env) (f : String) (s : GitState) : Except GitState GitState :=
  let s := checkpointPre f s
  match exportPhase env f s with
  | .error t => .error t
  | .ok s =>
      let s := checkpointPost f s
      match gitStashCmd env s with
      | .error t => .error t
      | .ok s => gitFetchCmd env s

/-- The command git checkout origin/master -- tex_file (line 162): fails when the
file does not exist on origin/master. -/
def checkoutOriginCmd (f : String) (s : GitState) : Except GitState GitState :=
  let s := pushLog (.checkoutOrigin f) s
  if f ∈ texNames s.remoteTex then
    .ok { s with texFiles := setTex f (getTex s.remoteTex f) s.texFiles }
  else .error s

/-- Lines 152-165: stash pop (check=False, never raises), tex2lyx back,
soft reset to HEAD@{2} (which also pushes a reflog entry), diff against
origin/master, checkout the remote version of the file. -/
def resetSoft (s : GitState) : GitState :=
  { s with reflog := (s.reflog.getD 2 []) :: s.reflog }

def mergeTail (env : Env) (f : String) (s : GitState) : Except GitState (Bool × GitState) :=
  let s := pushLog .gitStashPop s
  match tex2lyxCmd env f s with
  | .error t => .error t
  | .ok s =>
      let s := resetSoft (pushLog .gitResetSoft s)
      let s := pushLog (.gitDiff f) s
      match checkoutOriginCmd f s with
      | .error t => .error t
      | .ok s => .ok (true, s)

/-- Lines 144-165: the body of the inner try -- merge, conflict check and
handling, then the tail. -/
def mergeBody (env : Env) (f : String) (s : GitState) : Except GitState (Bool × GitState) :=
  match gitMergeCmd env f s with
  | .error t => .error t
  | .ok s =>
      let m := isGitMergingB s
      let s := pushLog .revParseMergeHead s
      if m then
        match handle_merge_conflict s with
        | (true, s) => mergeTail env f s
        | (false, s) => .ok (false, s)
      else mergeTail env f s

/-- Lines 139-169: touch `.disable_hooks`, run the merge body, and remove
the marker on every exit of the inner try (the `finally`). -/
def mergePhase (env : Env) (f : String) (s : GitState) : Except GitState (Bool × GitState) :=
  let s := touchGate s
  match mergeBody env f s with
  | .ok (b, t) => .ok (b, unlinkGate t)
  | .error t => .error (unlinkGate t)

/-- GitProcessor.process_file (lines 100-173).  The outer
`except CommandError` turns any raised error into a False result. -/
def process_file (env : Env) (f : String) (s : GitState) : Bool × GitState :=
  let s := pushLog (.startProcessing f) s
  match ensureRich env f s with
  | .error t => (false, t)
  | .ok s =>
      match afterFetch env f s with
      | .error t => (false, t)
      | .ok s =>
          match mergePhase env f s with
          | .ok (b, t) => (b, t)
          | .error t => (false, t)

/-- Model of tex_dir.glob("*.tex"): the file name ends in .tex. -/
def hasTexExt (f : String) : Bool := leadsWith ".tex".data.reverse f.data.reverse

/-- Discovery in `main` (line 190):
`[f for f in tex_dir.glob("*.tex") if "temp" not in str(f) and "main" not in str(f)]`. -/
def listTexFiles (listing : List String) : List String :=
  (listing.filter (fun f => hasTexExt f)).filter
    (fun f => !(containsSub "temp" f) && !(containsSub "main" f))

/-- The per-file loop of `main` (lines 197-200), threading the git state
and counting successes. -/
def processLoop (envOf : String → Env) : List String → GitState → Nat × GitState
  | [], s => (0, s)
  | f :: fs, s =>
      let r := process_file (envOf f) f s
      let rest := processLoop envOf fs r.2
      (if r.1 then rest.1 + 1 else rest.1, rest.2)

/-- Observable outcome of one `main` invocation: the process exit code,
the "N/M files successful" summary (None when it was never printed), and
whether the "No .tex files found" warning was logged instead. -/
structure RunOutput where
  exitCode : Nat
  summary : Option (Nat × Nat)
  noFilesWarning : Bool
  finalState : GitState
  deriving Repr

/-- The main function of post-merge.py (lines 175-207): discover files, return early
with a warning when there are none, otherwise process each file, log the
summary and exit 1 when some file failed. -/
def post_merge_main (envOf : String → Env) (listing : List String) (s : GitState) : RunOutput :=
  let files := listTexFiles listing
  if files = [] then
    { exitCode := 0, summary := none, noFilesWarning := true, finalState := s }
  else
    let r := processLoop envOf files s
    { exitCode := if r.1 < files.length then 1 else 0
      summary := some (r.1, files.length)
      noFilesWarning := false
      finalState := r.2 }

/-- LyXProcessor.process_file of pre-commit.py (lines 82-105): export the
.lyx to .tex and strip the envelope only for main.lyx. -/
def precommit_process_file (env : Env) (lyxFile : String) (s : GitState) : Bool × GitState :=
  let f := texOf lyxFile
  let s := pushLog (.startProcessing lyxFile) s
  match lyxExportCmd env f s with
  | .error t => (false, t)
  | .ok s =>
      let s := if lyxFile = "main.lyx" then applyStrip f s else s
      (true, s)

/-- Helper: replace the `.disable_hooks` marker state. -/
def setGate (b : Bool) (s : GitState) : GitState := { s with gate := b }

/-- The state a fallible step ends in, whether it returned or raised. -/
def outState (r : Except GitState GitState) : GitState :=
  match r with
  | .ok t => t
  | .error t => t

/-- The state the merge sub-phase ends in, on both kinds of exit. -/
def exitState (r : Except GitState (Bool × GitState)) : GitState :=
  match r with
  | .ok p => p.2
  | .error t => t

/-- How many times the run log records the Conflict Oracle probe
(`git rev-parse --verify MERGE_HEAD`). -/
def countOracle (l : List Eff) : Nat :=
  (l.filter (fun e => match e with | .revParseMergeHead => true | _ => false)).length

/-- An environment in which every external command succeeds and the merge
is clean. -/
def envOkB (e : Env) : Bool :=
  e.tex2lyxOk && e.lyxExportOk && e.stashOk && e.fetchOk &&
    (match e.merge with | .clean _ => true | _ => false)

/-- All commit ids present in the state are below the id counter. -/
def freshIds (s : GitState) : Prop :=
  (∀ i ∈ reachable s, i < s.nextId) ∧ (∀ i ∈ s.remoteIds, i < s.nextId)

/- Concrete fixtures used by witnesses and counterexamples. -/

def sampleLines : List String :=
  ["\\documentclass{article}", "\\begin{document}", "Hello body",
   "\\include{intro}", "\\end{document}"]

def mergedSample : List String := ["Hello merged"]

def remoteSample : List String := ["Hello remote"]

def goodEnv : Env :=
  { tex2lyxOk := true, lyxExportOk := true, exportLines := sampleLines,
    stashOk := true, fetchOk := true, merge := .clean mergedSample }

def conflictEnv : Env := { goodEnv with merge := .conflictZero ["<<<<<<< HEAD"] }

def badEnv : Env := { goodEnv with tex2lyxOk := false }

def s0 : GitState :=
  { nextId := 0, reflog := [[]], commitMsgs := []
    texFiles := [("intro.tex", sampleLines), ("body.tex", sampleLines)]
    lyxFiles := ["body.lyx"]
    mergeHead := false, gate := false
    remoteIds := []
    remoteTex := [("intro.tex", remoteSample), ("body.tex", remoteSample)]
    log := [] }

example : stripEnvelope sampleLines = ["Hello body"] := by decide

example : (process_file goodEnv "intro.tex" s0).1 = true := by decide

/-! ## Helper lemmas -/

theorem getTex_setTex_self (m : List (String × List String)) (f : String) (v : List String) :
    getTex (setTex f v m) f = v := by
  induction m with
  | nil => simp [setTex, getTex]
  | cons p rest ih =>
      obtain ⟨g, w⟩ := p
      by_cases h : g = f <;> simp [setTex, getTex, h, ih]

theorem getTex_setTex_other (m : List (String × List String)) (f g : String) (v : List String)
    (h : g ≠ f) : getTex (setTex f v m) g = getTex m g := by
  induction m with
  | nil => simp [setTex, getTex, Ne.symm h]
  | cons p rest ih =>
      obtain ⟨a, w⟩ := p
      by_cases ha : a = f
      · subst ha
        simp [setTex, getTex, Ne.symm h]
      · simp [setTex, getTex, ha, ih]

/-! ## C9 -/

/-- C9: the Conflict Oracle `is_git_merging` never raises (the rev-parse
probe runs with `check=False`) and returns true exactly when the MERGE_HEAD
marker resolves; a failing probe (exit 128, "no such reference") yields
`false`, not an error. -/
theorem c9_oracle_total (s : GitState) : is_git_merging s = .ok s.mergeHead := by
  cases h : s.mergeHead <;>
    simp [is_git_merging, run_command, mergeHeadExit, h]

/-! ## C7 -/

/-- C7: in the EXPORT step of the post-merge orchestrator, every document
other than the entry-point aggregator main.tex gets its regenerated source
envelope-stripped (document markers and include directives removed), while
main.tex is exempt from the transform; other files' contents are untouched. -/
theorem c7_export_strip (env : Env) (f : String) (s : GitState) (h : env.lyxExportOk = true) :
    (∃ t, exportPhase env f s = .ok t) ∧
    getTex (outState (exportPhase env f s)).texFiles f =
      (if f = "main.tex" then env.exportLines else stripEnvelope env.exportLines) ∧
    (∀ g, g ≠ f →
      getTex (outState (exportPhase env f s)).texFiles g = getTex s.texFiles g) := by
  by_cases hf : f = "main.tex"
  · subst hf
    refine ⟨?_, ?_, ?_⟩
    · simp [exportPhase, lyxExportCmd, h]
    · simp [exportPhase, lyxExportCmd, outState, h, pushLog, getTex_setTex_self]
    · intro g hg
      simp [exportPhase, lyxExportCmd, outState, h, pushLog,
        getTex_setTex_other _ _ _ _ hg]
  · refine ⟨?_, ?_, ?_⟩
    · simp [exportPhase, lyxExportCmd, h, hf]
    · simp [exportPhase, lyxExportCmd, outState, h, hf, applyStrip, pushLog,
        getTex_setTex_self]
    · intro g hg
      simp [exportPhase, lyxExportCmd, outState, h, hf, applyStrip, pushLog,
        getTex_setTex_self, getTex_setTex_other _ _ _ _ hg]

/-- C7 witness at a concrete input. -/
theorem c7_export_strip_witness :
    goodEnv.lyxExportOk = true ∧
    ((∃ t, exportPhase goodEnv "intro.tex" s0 = .ok t) ∧
     getTex (outState (exportPhase goodEnv "intro.tex" s0)).texFiles "intro.tex" =
       (if ("intro.tex" : String) = "main.tex" then goodEnv.exportLines
        else stripEnvelope goodEnv.exportLines) ∧
     (∀ g, g ≠ "intro.tex" →
       getTex (outState (exportPhase goodEnv "intro.tex" s0)).texFiles g =
         getTex s0.texFiles g)) :=
  ⟨by decide, c7_export_strip goodEnv "intro.tex" s0 (by decide)⟩

/-! ## C5 -/

theorem tex2lyxCmd_gate (env : Env) (f : String) (s : GitState) :
    (outState (tex2lyxCmd env f s)).gate = s.gate := by
  by_cases h : env.tex2lyxOk <;> simp [tex2lyxCmd, outState, pushLog, h]

theorem lyxExportCmd_gate (env : Env) (f : String) (s : GitState) :
    (outState (lyxExportCmd env f s)).gate = s.gate := by
  by_cases h : env.lyxExportOk <;> simp [lyxExportCmd, outState, pushLog, h]

theorem gitStashCmd_gate (env : Env) (s : GitState) :
    (outState (gitStashCmd env s)).gate = s.gate := by
  by_cases h : env.stashOk <;> simp [gitStashCmd, outState, pushLog, h]

theorem gitFetchCmd_gate (env : Env) (s : GitState) :
    (outState (gitFetchCmd env s)).gate = s.gate := by
  by_cases h : env.fetchOk <;> simp [gitFetchCmd, outState, pushLog, h]

theorem ensureRich_gate (env : Env) (f : String) (s : GitState) :
    (outState (ensureRich env f s)).gate = s.gate := by
  by_cases h : lyxOf f ∈ s.lyxFiles
  · simp [ensureRich, h, outState]
  · simp only [ensureRich, h, if_false]
    exact tex2lyxCmd_gate env f s

theorem doCommit_gate (msg : String) (s : GitState) :
    (doCommit msg s).gate = s.gate := by
  simp [doCommit, pushLog]

theorem exportPhase_gate (env : Env) (f : String) (s : GitState) :
    (outState (exportPhase env f s)).gate = s.gate := by
  cases h : lyxExportCmd env f s with
  | error t =>
      have hg := lyxExportCmd_gate env f s
      rw [h] at hg
      simpa [exportPhase, h, outState] using hg
  | ok t =>
      have hg := lyxExportCmd_gate env f s
      rw [h] at hg
      simp only [outState] at hg
      by_cases hf : f ≠ "main.tex" <;>
        simp [exportPhase, h, outState, hf, applyStrip, pushLog, hg]

theorem checkpointPre_gate (f : String) (s : GitState) :
    (checkpointPre f s).gate = s.gate := by
  simp [checkpointPre, doCommit, pushLog]

theorem checkpointPost_gate (f : String) (s : GitState) :
    (checkpointPost f s).gate = s.gate := by
  simp [checkpointPost, doCommit, pushLog]

theorem afterFetch_gate (env : Env) (f : String) (s : GitState) :
    (outState (afterFetch env f s)).gate = s.gate := by
  have hpre := checkpointPre_gate f s
  cases h1 : exportPhase env f (checkpointPre f s) with
  | error t =>
      have hg := exportPhase_gate env f (checkpointPre f s)
      rw [h1] at hg
      simp only [outState] at hg
      simp only [afterFetch, h1, outState]
      rw [hg, hpre]
  | ok t =>
      have hg := exportPhase_gate env f (checkpointPre f s)
      rw [h1] at hg
      simp only [outState] at hg
      have hpost := checkpointPost_gate f t
      cases h2 : gitStashCmd env (checkpointPost f t) with
      | error u =>
          have hs2 := gitStashCmd_gate env (checkpointPost f t)
          rw [h2] at hs2
          simp only [outState] at hs2
          simp only [afterFetch, h1, h2, outState]
          rw [hs2, hpost, hg, hpre]
      | ok u =>
          have hs2 := gitStashCmd_gate env (checkpointPost f t)
          rw [h2] at hs2
          simp only [outState] at hs2
          simp only [afterFetch, h1, h2]
          rw [gitFetchCmd_gate env u, hs2, hpost, hg, hpre]

theorem mergePhase_gate (env : Env) (f : String) (s : GitState) :
    (exitState (mergePhase env f s)).gate = false := by
  cases h : mergeBody env f (touchGate s) with
  | ok p =>
      obtain ⟨b, t⟩ := p
      simp [mergePhase, exitState, unlinkGate, pushLog, h]
  | error t => simp [mergePhase, exitState, unlinkGate, pushLog, h]

/-- C5: the Hook Gate token is removed on every exit of the merge
sub-phase -- ordinary return, conflict handling, or a CommandError raised
inside the sub-phase (the try/finally of lines 143-169) -- and hence a run
entered with no stale token never terminates with the token still held. -/
theorem c5_gate_always_released :
    (∀ env f s, (exitState (mergePhase env f s)).gate = false) ∧
    (∀ env f s, s.gate = false → (process_file env f s).2.gate = false) := by
  refine ⟨mergePhase_gate, ?_⟩
  intro env f s hs
  cases h1 : ensureRich env f (pushLog (.startProcessing f) s) with
  | error t =>
      have hg := ensureRich_gate env f (pushLog (.startProcessing f) s)
      rw [h1] at hg
      simp only [outState] at hg
      simp only [process_file, h1]
      rw [hg]
      simpa [pushLog] using hs
  | ok t =>
      cases h2 : afterFetch env f t with
      | error u =>
          have hg := afterFetch_gate env f t
          rw [h2] at hg
          simp only [outState] at hg
          have ht := ensureRich_gate env f (pushLog (.startProcessing f) s)
          rw [h1] at ht
          simp only [outState] at ht
          simp only [process_file, h1, h2]
          rw [hg, ht]
          simpa [pushLog] using hs
      | ok u =>
          cases h3 : mergePhase env f u with
          | ok p =>
              obtain ⟨b, w⟩ := p
              have hm := mergePhase_gate env f u
              rw [h3] at hm
              simp only [exitState] at hm
              simpa [process_file, h1, h2, h3] using hm
          | error w =>
              have hm := mergePhase_gate env f u
              rw [h3] at hm
              simp only [exitState] at hm
              simpa [process_file, h1, h2, h3] using hm

/-- C5 witness: a concrete run releases the gate. -/
theorem c5_gate_release_witness :
    s0.gate = false ∧ (process_file goodEnv "intro.tex" s0).2.gate = false :=
  ⟨rfl, c5_gate_always_released.2 goodEnv "intro.tex" s0 rfl⟩

/-! ## Run invariants and good-path evaluation -/

theorem isGitMergingB_eq (s : GitState) : isGitMergingB s = s.mergeHead := by
  cases h : s.mergeHead <;>
    simp [isGitMergingB, is_git_merging, run_command, mergeHeadExit, h]

theorem tex2lyxCmd_remote (env : Env) (f : String) (s : GitState) :
    (outState (tex2lyxCmd env f s)).remoteTex = s.remoteTex := by
  by_cases h : env.tex2lyxOk <;> simp [tex2lyxCmd, outState, pushLog, h]

theorem lyxExportCmd_remote (env : Env) (f : String) (s : GitState) :
    (outState (lyxExportCmd env f s)).remoteTex = s.remoteTex := by
  by_cases h : env.lyxExportOk <;> simp [lyxExportCmd, outState, pushLog, h]

theorem gitStashCmd_remote (env : Env) (s : GitState) :
    (outState (gitStashCmd env s)).remoteTex = s.remoteTex := by
  by_cases h : env.stashOk <;> simp [gitStashCmd, outState, pushLog, h]

theorem gitFetchCmd_remote (env : Env) (s : GitState) :
    (outState (gitFetchCmd env s)).remoteTex = s.remoteTex := by
  by_cases h : env.fetchOk <;> simp [gitFetchCmd, outState, pushLog, h]

theorem gitMergeCmd_remote (env : Env) (f : String) (s : GitState) :
    (outState (gitMergeCmd env f s)).remoteTex = s.remoteTex := by
  cases h : env.merge <;> simp [gitMergeCmd, outState, pushLog, h]

theorem doCommit_remote (msg : String) (s : GitState) :
    (doCommit msg s).remoteTex = s.remoteTex := by
  simp [doCommit, pushLog]

theorem handle_merge_conflict_remote (s : GitState) :
    (handle_merge_conflict s).2.remoteTex = s.remoteTex := by
  simp [handle_merge_conflict, doCommit, pushLog]

theorem checkpointPre_remote (f : String) (s : GitState) :
    (checkpointPre f s).remoteTex = s.remoteTex := by
  simp [checkpointPre, doCommit, pushLog]

theorem checkpointPost_remote (f : String) (s : GitState) :
    (checkpointPost f s).remoteTex = s.remoteTex := by
  simp [checkpointPost, doCommit, pushLog]

theorem ensureRich_remote (env : Env) (f : String) (s : GitState) :
    (outState (ensureRich env f s)).remoteTex = s.remoteTex := by
  by_cases h : lyxOf f ∈ s.lyxFiles
  · simp [ensureRich, h, outState]
  · simp only [ensureRich, h, if_false]
    exact tex2lyxCmd_remote env f s

theorem exportPhase_remote (env : Env) (f : String) (s : GitState) :
    (outState (exportPhase env f s)).remoteTex = s.remoteTex := by
  cases h : lyxExportCmd env f s with
  | error t =>
      have hg := lyxExportCmd_remote env f s
      rw [h] at hg
      simpa [exportPhase, h, outState] using hg
  | ok t =>
      have hg := lyxExportCmd_remote env f s
      rw [h] at hg
      simp only [outState] at hg
      by_cases hf : f ≠ "main.tex" <;>
        simp [exportPhase, h, outState, hf, applyStrip, pushLog, hg]

theorem afterFetch_remote (env : Env) (f : String) (s : GitState) :
    (outState (afterFetch env f s)).remoteTex = s.remoteTex := by
  have hpre := checkpointPre_remote f s
  cases h1 : exportPhase env f (checkpointPre f s) with
  | error t =>
      have hg := exportPhase_remote env f (checkpointPre f s)
      rw [h1] at hg
      simp only [outState] at hg
      simp only [afterFetch, h1, outState]
      rw [hg, hpre]
  | ok t =>
      have hg := exportPhase_remote env f (checkpointPre f s)
      rw [h1] at hg
      simp only [outState] at hg
      have hpost := checkpointPost_remote f t
      cases h2 : gitStashCmd env (checkpointPost f t) with
      | error u =>
          have hs2 := gitStashCmd_remote env (checkpointPost f t)
          rw [h2] at hs2
          simp only [outState] at hs2
          simp only [afterFetch, h1, h2, outState]
          rw [hs2, hpost, hg, hpre]
      | ok u =>
          have hs2 := gitStashCmd_remote env (checkpointPost f t)
          rw [h2] at hs2
          simp only [outState] at hs2
          simp only [afterFetch, h1, h2]
          rw [gitFetchCmd_remote env u, hs2, hpost, hg, hpre]

theorem checkoutOriginCmd_remote (f : String) (s : GitState) :
    (outState (checkoutOriginCmd f s)).remoteTex = s.remoteTex := by
  by_cases h : f ∈ texNames (pushLog (.checkoutOrigin f) s).remoteTex <;>
    simp [checkoutOriginCmd, outState, pushLog, h] <;>
    simp [pushLog] at h <;> simp [h]

theorem mergeTail_remote (env : Env) (f : String) (s : GitState) :
    (exitState (mergeTail env f s)).remoteTex = s.remoteTex := by
  cases h1 : tex2lyxCmd env f (pushLog .gitStashPop s) with
  | error t =>
      have hg := tex2lyxCmd_remote env f (pushLog .gitStashPop s)
      rw [h1] at hg
      simp only [outState] at hg
      simp only [mergeTail, h1, exitState]
      rw [hg]
      simp [pushLog]
  | ok t =>
      have hg := tex2lyxCmd_remote env f (pushLog .gitStashPop s)
      rw [h1] at hg
      simp only [outState] at hg
      have hco := checkoutOriginCmd_remote f (pushLog (.gitDiff f) (resetSoft (pushLog .gitResetSoft t)))
      cases h2 : checkoutOriginCmd f (pushLog (.gitDiff f) (resetSoft (pushLog .gitResetSoft t))) with
      | error u =>
          rw [h2] at hco
          simp only [outState] at hco
          simp only [mergeTail, h1, h2, exitState]
          rw [hco]
          simp only [pushLog, resetSoft]
          rw [hg]
          simp [pushLog]
      | ok u =>
          rw [h2] at hco
          simp only [outState] at hco
          simp only [mergeTail, h1, h2, exitState]
          rw [hco]
          simp only [pushLog, resetSoft]
          rw [hg]
          simp [pushLog]

theorem mergeBody_remote (env : Env) (f : String) (s : GitState) :
    (exitState (mergeBody env f s)).remoteTex = s.remoteTex := by
  cases h1 : gitMergeCmd env f s with
  | error t =>
      have hg := gitMergeCmd_remote env f s
      rw [h1] at hg
      simp only [outState] at hg
      simpa [mergeBody, h1, exitState] using hg
  | ok t =>
      have hg := gitMergeCmd_remote env f s
      rw [h1] at hg
      simp only [outState] at hg
      by_cases hb : isGitMergingB t
      · have hmc := handle_merge_conflict_remote (pushLog .revParseMergeHead t)
        have htl := mergeTail_remote env f (handle_merge_conflict (pushLog .revParseMergeHead t)).2
        simp only [mergeBody, h1, hb, if_true]
        cases hh : handle_merge_conflict (pushLog .revParseMergeHead t) with
        | mk b u =>
            cases b
            · simp only [hh, exitState]
              rw [hh] at hmc
              simp only [] at hmc
              simp only [pushLog] at hmc
              rw [hmc, hg]
            · rw [hh] at htl hmc
              simp only [] at htl hmc
              simp only [hh]
              rw [htl, hmc]
              simp only [pushLog]
              rw [hg]
      · simp only [mergeBody, h1, Bool.not_eq_true] at hb ⊢
        rw [hb]
        simp only [Bool.false_eq_true, if_false]
        have htl := mergeTail_remote env f (pushLog .revParseMergeHead t)
        rw [htl]
        simp only [pushLog]
        rw [hg]

theorem mergePhase_remote (env : Env) (f : String) (s : GitState) :
    (exitState (mergePhase env f s)).remoteTex = s.remoteTex := by
  have hb := mergeBody_remote env f (touchGate s)
  cases h : mergeBody env f (touchGate s) with
  | ok p =>
      obtain ⟨b, t⟩ := p
      rw [h] at hb
      simp only [exitState] at hb
      simp only [mergePhase, h, exitState, unlinkGate, pushLog]
      rw [hb]
      simp [touchGate, pushLog]
  | error t =>
      rw [h] at hb
      simp only [exitState] at hb
      simp only [mergePhase, h, exitState, unlinkGate, pushLog]
      rw [hb]
      simp [touchGate, pushLog]

theorem process_file_remote (env : Env) (f : String) (s : GitState) :
    (process_file env f s).2.remoteTex = s.remoteTex := by
  cases h1 : ensureRich env f (pushLog (.startProcessing f) s) with
  | error t =>
      have hg := ensureRich_remote env f (pushLog (.startProcessing f) s)
      rw [h1] at hg
      simp only [outState] at hg
      simp only [process_file, h1]
      rw [hg]
      simp [pushLog]
  | ok t =>
      have hg := ensureRich_remote env f (pushLog (.startProcessing f) s)
      rw [h1] at hg
      simp only [outState] at hg
      cases h2 : afterFetch env f t with
      | error u =>
          have ha := afterFetch_remote env f t
          rw [h2] at ha
          simp only [outState] at ha
          simp only [process_file, h1, h2]
          rw [ha, hg]
          simp [pushLog]
      | ok u =>
          have ha := afterFetch_remote env f t
          rw [h2] at ha
          simp only [outState] at ha
          have hm := mergePhase_remote env f u
          cases h3 : mergePhase env f u with
          | ok p =>
              obtain ⟨b, w⟩ := p
              rw [h3] at hm
              simp only [exitState] at hm
              simp only [process_file, h1, h2, h3]
              rw [hm, ha, hg]
              simp [pushLog]
          | error w =>
              rw [h3] at hm
              simp only [exitState] at hm
              simp only [process_file, h1, h2, h3]
              rw [hm, ha, hg]
              simp [pushLog]

theorem process_file_success (env : Env) (f : String) (s : GitState) (merged : List String)
    (h1 : env.tex2lyxOk = true) (h2 : env.lyxExportOk = true)
    (h3 : env.stashOk = true) (h4 : env.fetchOk = true)
    (hm : env.merge = .clean merged) (hr : f ∈ texNames s.remoteTex) :
    (process_file env f s).1 = true ∧
    Eff.startProcessing f ∈ (process_file env f s).2.log ∧
    Eff.gitMerge ∈ (process_file env f s).2.log := by
  by_cases hf : f = "main.tex"
  · subst hf
    by_cases hl : lyxOf "main.tex" ∈ s.lyxFiles <;>
      simp [process_file, ensureRich, afterFetch, mergePhase, mergeBody, mergeTail,
        exportPhase, checkpointPre, checkpointPost, tex2lyxCmd, lyxExportCmd, applyStrip,
        gitStashCmd, gitFetchCmd, gitMergeCmd, checkoutOriginCmd, doCommit, resetSoft,
        touchGate, unlinkGate, pushLog, isGitMergingB_eq, reachable,
        List.getD_cons_zero, List.getD_cons_succ,
        h1, h2, h3, h4, hm, hr, hl]
  · by_cases hl : lyxOf f ∈ s.lyxFiles <;>
      simp [process_file, ensureRich, afterFetch, mergePhase, mergeBody, mergeTail,
        exportPhase, checkpointPre, checkpointPost, tex2lyxCmd, lyxExportCmd, applyStrip,
        gitStashCmd, gitFetchCmd, gitMergeCmd, checkoutOriginCmd, doCommit, resetSoft,
        touchGate, unlinkGate, pushLog, isGitMergingB_eq, reachable,
        List.getD_cons_zero, List.getD_cons_succ,
        h1, h2, h3, h4, hm, hr, hl, hf]

theorem process_file_clean_eval (env : Env) (f : String) (s : GitState) (merged : List String)
    (h1 : env.tex2lyxOk = true) (h2 : env.lyxExportOk = true)
    (h3 : env.stashOk = true) (h4 : env.fetchOk = true)
    (hm : env.merge = .clean merged) (hmh : s.mergeHead = false)
    (hr : f ∈ texNames s.remoteTex) :
    (process_file env f s).1 = true ∧
    reachable (process_file env f s).2 = s.nextId :: reachable s ∧
    (s.nextId, backupMsg f) ∈ (process_file env f s).2.commitMsgs := by
  by_cases hf : f = "main.tex"
  · subst hf
    by_cases hl : lyxOf "main.tex" ∈ s.lyxFiles <;>
      simp [process_file, ensureRich, afterFetch, mergePhase, mergeBody, mergeTail,
        exportPhase, checkpointPre, checkpointPost, tex2lyxCmd, lyxExportCmd, applyStrip,
        gitStashCmd, gitFetchCmd, gitMergeCmd, checkoutOriginCmd, doCommit, resetSoft,
        touchGate, unlinkGate, pushLog, isGitMergingB_eq, reachable,
        List.getD_cons_zero, List.getD_cons_succ,
        h1, h2, h3, h4, hm, hmh, hr, hl]
  · by_cases hl : lyxOf f ∈ s.lyxFiles <;>
      simp [process_file, ensureRich, afterFetch, mergePhase, mergeBody, mergeTail,
        exportPhase, checkpointPre, checkpointPost, tex2lyxCmd, lyxExportCmd, applyStrip,
        gitStashCmd, gitFetchCmd, gitMergeCmd, checkoutOriginCmd, doCommit, resetSoft,
        touchGate, unlinkGate, pushLog, isGitMergingB_eq, reachable,
        List.getD_cons_zero, List.getD_cons_succ,
        h1, h2, h3, h4, hm, hmh, hr, hl, hf]

theorem process_file_uptodate_eval (env : Env) (f : String) (s : GitState)
    (h1 : env.tex2lyxOk = true) (h2 : env.lyxExportOk = true)
    (h3 : env.stashOk = true) (h4 : env.fetchOk = true)
    (hm : env.merge = .upToDate) (hmh : s.mergeHead = false)
    (hr : f ∈ texNames s.remoteTex) :
    (process_file env f s).1 = true ∧
    reachable (process_file env f s).2 = reachable s := by
  by_cases hf : f = "main.tex"
  · subst hf
    by_cases hl : lyxOf "main.tex" ∈ s.lyxFiles <;>
      simp [process_file, ensureRich, afterFetch, mergePhase, mergeBody, mergeTail,
        exportPhase, checkpointPre, checkpointPost, tex2lyxCmd, lyxExportCmd, applyStrip,
        gitStashCmd, gitFetchCmd, gitMergeCmd, checkoutOriginCmd, doCommit, resetSoft,
        touchGate, unlinkGate, pushLog, isGitMergingB_eq, reachable,
        List.getD_cons_zero, List.getD_cons_succ,
        h1, h2, h3, h4, hm, hmh, hr, hl]
  · by_cases hl : lyxOf f ∈ s.lyxFiles <;>
      simp [process_file, ensureRich, afterFetch, mergePhase, mergeBody, mergeTail,
        exportPhase, checkpointPre, checkpointPost, tex2lyxCmd, lyxExportCmd, applyStrip,
        gitStashCmd, gitFetchCmd, gitMergeCmd, checkoutOriginCmd, doCommit, resetSoft,
        touchGate, unlinkGate, pushLog, isGitMergingB_eq, reachable,
        List.getD_cons_zero, List.getD_cons_succ,
        h1, h2, h3, h4, hm, hmh, hr, hl, hf]

/-! ## C1 -/

/-- C1 counterexample: a post-merge run started while the Hook Gate token
(`.disable_hooks`) already exists does NOT skip: it still stashes, fetches
and merges (all merge-phase side effects appear in the log) and reports
success, contradicting "the run performs no merge-phase side effects". -/
theorem c1_gate_not_checked_cex :
    (setGate true s0).gate = true ∧
    (process_file goodEnv "intro.tex" (setGate true s0)).1 = true ∧
    Eff.gitMerge ∈ (process_file goodEnv "intro.tex" (setGate true s0)).2.log ∧
    Eff.gitStash ∈ (process_file goodEnv "intro.tex" (setGate true s0)).2.log ∧
    Eff.gitFetch ∈ (process_file goodEnv "intro.tex" (setGate true s0)).2.log := by
  decide

/-- C1 amended: the post-merge workflow never consults the Hook Gate token
at the start of a run.  A run that starts with the token already present
performs the merge phase exactly as one that starts without it (the
`touch` is idempotent); the skip-if-held convention is left to the other
automation entry points. -/
theorem c1_gate_irrelevant (env : Env) (f : String) (s : GitState) (merged : List String)
    (h1 : env.tex2lyxOk = true) (h2 : env.lyxExportOk = true)
    (h3 : env.stashOk = true) (h4 : env.fetchOk = true)
    (hm : env.merge = .clean merged) (hr : f ∈ texNames s.remoteTex) :
    (process_file env f (setGate true s)).1 = true ∧
    Eff.gitMerge ∈ (process_file env f (setGate true s)).2.log ∧
    (process_file env f (setGate true s)).1 = (process_file env f (setGate false s)).1 := by
  have hT := process_file_success env f (setGate true s) merged h1 h2 h3 h4 hm
    (by simpa [setGate] using hr)
  have hF := process_file_success env f (setGate false s) merged h1 h2 h3 h4 hm
    (by simpa [setGate] using hr)
  exact ⟨hT.1, hT.2.2, by rw [hT.1, hF.1]⟩

/-- C1 witness. -/
theorem c1_gate_witness :
    goodEnv.tex2lyxOk = true ∧ ("intro.tex" : String) ∈ texNames s0.remoteTex ∧
    ((process_file goodEnv "intro.tex" (setGate true s0)).1 = true ∧
     Eff.gitMerge ∈ (process_file goodEnv "intro.tex" (setGate true s0)).2.log ∧
     (process_file goodEnv "intro.tex" (setGate true s0)).1 =
       (process_file goodEnv "intro.tex" (setGate false s0)).1) :=
  ⟨rfl, by decide,
   c1_gate_irrelevant goodEnv "intro.tex" s0 mergedSample rfl rfl rfl rfl rfl (by decide)⟩

/-! ## C3 -/

/-- C3 counterexample: after a run whose merge created a merge commit, the
soft reset to HEAD@\x7b2\x7d lands ON the backup checkpoint (Checkpoint 1,
commit id 0 of this run, an automation-tagged commit), so the history
still contains one of the two checkpoint commits, contradicting "the
commit history no longer contains the two automation-only checkpoint
commits created by the current run". -/
theorem c3_backup_checkpoint_survives_cex :
    (process_file goodEnv "intro.tex" s0).1 = true ∧
    0 ∈ reachable (process_file goodEnv "intro.tex" s0).2 ∧
    (0, backupMsg "intro.tex") ∈ (process_file goodEnv "intro.tex" s0).2.commitMsgs := by
  decide

/-- C3 amended: after REWIND the pre-merge checkpoint (Checkpoint 2) and
the merge commit are gone from HEAD's history, but when the merge created
a commit the reset lands on Checkpoint 1, which remains in history; both
checkpoints disappear only when the merge was an up-to-date no-op.  The
soft reset itself never touches the working tree. -/
theorem c3_rewind_amended :
    (∀ env f s merged, env.tex2lyxOk = true → env.lyxExportOk = true →
      env.stashOk = true → env.fetchOk = true → env.merge = .clean merged →
      s.mergeHead = false → f ∈ texNames s.remoteTex → freshIds s →
      (process_file env f s).1 = true ∧
      s.nextId ∈ reachable (process_file env f s).2 ∧
      (s.nextId, backupMsg f) ∈ (process_file env f s).2.commitMsgs ∧
      s.nextId + 1 ∉ reachable (process_file env f s).2 ∧
      s.nextId + 2 ∉ reachable (process_file env f s).2) ∧
    (∀ env f s, env.tex2lyxOk = true → env.lyxExportOk = true →
      env.stashOk = true → env.fetchOk = true → env.merge = .upToDate →
      s.mergeHead = false → f ∈ texNames s.remoteTex → freshIds s →
      (process_file env f s).1 = true ∧
      reachable (process_file env f s).2 = reachable s ∧
      s.nextId ∉ reachable (process_file env f s).2) ∧
    (∀ u, (resetSoft u).texFiles = u.texFiles ∧ (resetSoft u).lyxFiles = u.lyxFiles ∧
      (resetSoft u).commitMsgs = u.commitMsgs ∧ (resetSoft u).log = u.log) := by
  refine ⟨?_, ?_, ?_⟩
  · intro env f s merged h1 h2 h3 h4 hm hmh hr hfr
    obtain ⟨ha, hb, hc⟩ := process_file_clean_eval env f s merged h1 h2 h3 h4 hm hmh hr
    refine ⟨ha, ?_, hc, ?_, ?_⟩
    · rw [hb]
      exact List.mem_cons_self _ _
    · rw [hb]
      intro hmem
      rcases List.mem_cons.mp hmem with he | hin
      · omega
      · exact absurd (hfr.1 _ hin) (by omega)
    · rw [hb]
      intro hmem
      rcases List.mem_cons.mp hmem with he | hin
      · omega
      · exact absurd (hfr.1 _ hin) (by omega)
  · intro env f s h1 h2 h3 h4 hm hmh hr hfr
    obtain ⟨ha, hb⟩ := process_file_uptodate_eval env f s h1 h2 h3 h4 hm hmh hr
    refine ⟨ha, hb, ?_⟩
    rw [hb]
    intro hmem
    exact absurd (hfr.1 _ hmem) (by omega)
  · intro u
    exact ⟨rfl, rfl, rfl, rfl⟩

/-- C3 witness. -/
theorem c3_rewind_witness :
    (s0.mergeHead = false ∧ freshIds s0) ∧
    ((process_file goodEnv "intro.tex" s0).1 = true ∧
     s0.nextId ∈ reachable (process_file goodEnv "intro.tex" s0).2 ∧
     (s0.nextId, backupMsg "intro.tex") ∈ (process_file goodEnv "intro.tex" s0).2.commitMsgs ∧
     s0.nextId + 1 ∉ reachable (process_file goodEnv "intro.tex" s0).2 ∧
     s0.nextId + 2 ∉ reachable (process_file goodEnv "intro.tex" s0).2) :=
  ⟨⟨rfl, by simp [freshIds, reachable, s0]⟩,
   c3_rewind_amended.1 goodEnv "intro.tex" s0 mergedSample rfl rfl rfl rfl rfl rfl
     (by decide) (by simp [freshIds, reachable, s0])⟩

/-! ## C6 -/

/-- C6: a failure while processing document A is caught at the per-document
boundary (`process_file` returns False instead of raising), and document B
-- independent of A in that B's source still exists on the remote -- is
still processed afterwards and reaches DONE. -/
theorem c6_document_isolation (fA fB : String) (envA envB : Env) (s : GitState)
    (merged : List String)
    (h1 : envB.tex2lyxOk = true) (h2 : envB.lyxExportOk = true)
    (h3 : envB.stashOk = true) (h4 : envB.fetchOk = true)
    (hm : envB.merge = .clean merged) (hr : fB ∈ texNames s.remoteTex) :
    (process_file envB fB (process_file envA fA s).2).1 = true ∧
    Eff.startProcessing fB ∈ (process_file envB fB (process_file envA fA s).2).2.log := by
  have hinv := process_file_remote envA fA s
  have hsucc := process_file_success envB fB (process_file envA fA s).2 merged h1 h2 h3 h4 hm
    (by rw [hinv]; exact hr)
  exact ⟨hsucc.1, hsucc.2.1⟩

/-- C6 witness: document body.tex fails (its converter is broken), yet
intro.tex is still processed afterwards and succeeds. -/
theorem c6_document_isolation_witness :
    (process_file badEnv "body.tex" s0).1 = false ∧
    ("intro.tex" : String) ∈ texNames s0.remoteTex ∧
    ((process_file goodEnv "intro.tex" (process_file badEnv "body.tex" s0).2).1 = true ∧
     Eff.startProcessing "intro.tex" ∈
       (process_file goodEnv "intro.tex" (process_file badEnv "body.tex" s0).2).2.log) :=
  ⟨by decide, by decide,
   c6_document_isolation "body.tex" "intro.tex" badEnv goodEnv s0 mergedSample
     rfl rfl rfl rfl rfl (by decide)⟩

/-! ## C2 -/

theorem process_file_conflict_eval (env : Env) (f : String) (s : GitState) (c : List String)
    (h1 : env.tex2lyxOk = true) (h2 : env.lyxExportOk = true)
    (h3 : env.stashOk = true) (h4 : env.fetchOk = true)
    (hm : env.merge = .conflictZero c) (hr : f ∈ texNames s.remoteTex) :
    (process_file env f s).1 = true ∧
    countOracle (process_file env f s).2.log = countOracle s.log + 1 ∧
    Eff.checkoutTheirs ∈ (process_file env f s).2.log ∧
    (s.nextId + 2, acceptMsg) ∈ (process_file env f s).2.commitMsgs := by
  by_cases hf : f = "main.tex"
  · subst hf
    by_cases hl : lyxOf "main.tex" ∈ s.lyxFiles <;>
      simp [process_file, ensureRich, afterFetch, mergePhase, mergeBody, mergeTail,
        exportPhase, checkpointPre, checkpointPost, tex2lyxCmd, lyxExportCmd, applyStrip,
        gitStashCmd, gitFetchCmd, gitMergeCmd, checkoutOriginCmd, doCommit, resetSoft,
        touchGate, unlinkGate, pushLog, isGitMergingB_eq, handle_merge_conflict,
        reachable, List.getD_cons_zero, List.getD_cons_succ,
        countOracle, List.filter_append,
        h1, h2, h3, h4, hm, hr, hl]
  · by_cases hl : lyxOf f ∈ s.lyxFiles <;>
      simp [process_file, ensureRich, afterFetch, mergePhase, mergeBody, mergeTail,
        exportPhase, checkpointPre, checkpointPost, tex2lyxCmd, lyxExportCmd, applyStrip,
        gitStashCmd, gitFetchCmd, gitMergeCmd, checkoutOriginCmd, doCommit, resetSoft,
        touchGate, unlinkGate, pushLog, isGitMergingB_eq, handle_merge_conflict,
        reachable, List.getD_cons_zero, List.getD_cons_succ,
        countOracle, List.filter_append,
        h1, h2, h3, h4, hm, hr, hl, hf]

/-- C2 counterexample: the conflict handling of the post-merge hook is not
a per-run configuration choice and never blocks: on a conflicted merge
that exits zero, the one and only behaviour is to query the Oracle once,
immediately stage the remote version and commit -- there is no interactive
policy that polls until a human resolves the conflict. -/
theorem c2_no_interactive_policy_cex :
    (process_file conflictEnv "intro.tex" s0).1 = true ∧
    countOracle (process_file conflictEnv "intro.tex" s0).2.log = 1 ∧
    Eff.checkoutTheirs ∈ (process_file conflictEnv "intro.tex" s0).2.log ∧
    (2, acceptMsg) ∈ (process_file conflictEnv "intro.tex" s0).2.commitMsgs := by
  decide

/-- C2 amended: only the auto-theirs policy exists, and it is hard-wired,
not configurable.  `handle_merge_conflict` unconditionally runs checkout
--theirs, add, commit; a run whose merge leaves MERGE_HEAD behind with a
zero exit resolves the conflict in the same run with exactly one Oracle
query and no waiting. -/
theorem c2_auto_theirs_only :
    (∀ s, (handle_merge_conflict s).1 = true ∧
      (handle_merge_conflict s).2.log =
        s.log ++ [Eff.checkoutTheirs, Eff.gitAdd ".", Eff.gitCommit acceptMsg]) ∧
    (∀ env f s c, env.tex2lyxOk = true → env.lyxExportOk = true →
      env.stashOk = true → env.fetchOk = true → env.merge = .conflictZero c →
      f ∈ texNames s.remoteTex →
      (process_file env f s).1 = true ∧
      countOracle (process_file env f s).2.log = countOracle s.log + 1 ∧
      Eff.checkoutTheirs ∈ (process_file env f s).2.log ∧
      (s.nextId + 2, acceptMsg) ∈ (process_file env f s).2.commitMsgs) := by
  constructor
  · intro s
    constructor
    · rfl
    · simp [handle_merge_conflict, doCommit, pushLog]
  · intro env f s c h1 h2 h3 h4 hm hr
    exact process_file_conflict_eval env f s c h1 h2 h3 h4 hm hr

/-- C2 witness. -/
theorem c2_auto_theirs_witness :
    conflictEnv.merge = MergeOutcome.conflictZero ["<<<<<<< HEAD"] ∧
    ((process_file conflictEnv "intro.tex" s0).1 = true ∧
     countOracle (process_file conflictEnv "intro.tex" s0).2.log = countOracle s0.log + 1 ∧
     Eff.checkoutTheirs ∈ (process_file conflictEnv "intro.tex" s0).2.log ∧
     (s0.nextId + 2, acceptMsg) ∈ (process_file conflictEnv "intro.tex" s0).2.commitMsgs) :=
  ⟨rfl, c2_auto_theirs_only.2 conflictEnv "intro.tex" s0 ["<<<<<<< HEAD"]
    rfl rfl rfl rfl rfl (by decide)⟩

/-! ## C4 -/

/-- C4 counterexample: domain.tex is a SourceForm document, is not the
entry-point document and is not a scratch/temp artifact, yet discovery
excludes it, because the filter tests substring containment of "main"
(and "temp") over the whole name. -/
theorem c4_substring_exclusion_cex :
    listTexFiles ["domain.tex"] = [] ∧
    ("domain.tex" : String) ≠ "main.tex" ∧
    ("domain.tex" : String) ≠ "temp_file.tex" ∧
    hasTexExt "domain.tex" = true ∧
    containsSub "temp" "domain.tex" = false := by
  decide

/-- C4 amended: discovery returns exactly the .tex files whose full name
contains neither "temp" nor "main" as a substring.  Every returned file is
indeed a non-scratch document different from the entry point, but the
exclusion is coarser than the claim states: any document whose name merely
contains one of those substrings is also dropped. -/
theorem c4_discovery_amended (listing : List String) (f : String)
    (h : f ∈ listTexFiles listing) :
    f ∈ listing ∧ hasTexExt f = true ∧
    containsSub "temp" f = false ∧ containsSub "main" f = false ∧
    f ≠ "main.tex" ∧ f ≠ "temp_file.tex" := by
  have h' := h
  simp only [listTexFiles, List.mem_filter, Bool.and_eq_true, Bool.not_eq_true'] at h'
  obtain ⟨⟨hmem, hext⟩, htemp, hmain⟩ := h'
  refine ⟨hmem, hext, htemp, hmain, ?_, ?_⟩
  · intro he
    rw [he] at hmain
    exact absurd hmain (by decide)
  · intro he
    rw [he] at htemp
    exact absurd htemp (by decide)

/-- C4 witness. -/
theorem c4_discovery_witness :
    ("intro.tex" : String) ∈ listTexFiles ["intro.tex", "domain.tex", "main.tex"] ∧
    (("intro.tex" : String) ∈ ["intro.tex", "domain.tex", "main.tex"] ∧
     hasTexExt "intro.tex" = true ∧
     containsSub "temp" "intro.tex" = false ∧ containsSub "main" "intro.tex" = false ∧
     ("intro.tex" : String) ≠ "main.tex" ∧ ("intro.tex" : String) ≠ "temp_file.tex") :=
  ⟨by decide,
   c4_discovery_amended ["intro.tex", "domain.tex", "main.tex"] "intro.tex" (by decide)⟩

/-! ## C8 -/

theorem processLoop_le (envOf : String → Env) (files : List String) (s : GitState) :
    (processLoop envOf files s).1 ≤ files.length := by
  induction files generalizing s with
  | nil => simp [processLoop]
  | cons f fs ih =>
      cases hr : (process_file (envOf f) f s).1 <;>
        simp [processLoop, hr] <;>
        have := ih (process_file (envOf f) f s).2 <;>
        omega

/-- C8 counterexample: a run whose managed directory holds only the
entry-point document discovers no files, logs the "No .tex files found"
warning and exits 0 WITHOUT emitting the "N/M files successful" summary,
contradicting "a per-run summary ... is emitted at the end of the run". -/
theorem c8_no_summary_cex :
    (post_merge_main (fun _ => goodEnv) ["main.tex"] s0).summary = none ∧
    (post_merge_main (fun _ => goodEnv) ["main.tex"] s0).noFilesWarning = true ∧
    (post_merge_main (fun _ => goodEnv) ["main.tex"] s0).exitCode = 0 := by
  decide

/-- C8 amended: the exit code is 0 exactly when every discovered document
succeeded, and the "N/M files successful" summary is emitted on every run
that discovers at least one document; a run that discovers none emits only
the no-files warning and exits 0. -/
theorem c8_exit_code_amended (envOf : String → Env) (listing : List String) (s : GitState) :
    ((post_merge_main envOf listing s).exitCode = 0 ↔
      (processLoop envOf (listTexFiles listing) s).1 = (listTexFiles listing).length) ∧
    (listTexFiles listing ≠ [] →
      (post_merge_main envOf listing s).summary =
        some ((processLoop envOf (listTexFiles listing) s).1, (listTexFiles listing).length)) ∧
    (listTexFiles listing = [] →
      (post_merge_main envOf listing s).summary = none ∧
      (post_merge_main envOf listing s).exitCode = 0) := by
  by_cases hempty : listTexFiles listing = []
  · simp [post_merge_main, hempty, processLoop]
  · have hle := processLoop_le envOf (listTexFiles listing) s
    refine ⟨?_, ?_, fun he => absurd he hempty⟩
    · by_cases hlt :
        (processLoop envOf (listTexFiles listing) s).1 < (listTexFiles listing).length
      · simp [post_merge_main, hempty, hlt]
        omega
      · simp [post_merge_main, hempty, hlt]
        omega
    · intro hne
      simp [post_merge_main, hempty]

/-- C8 witness. -/
theorem c8_exit_code_witness :
    listTexFiles ["intro.tex"] ≠ [] ∧
    (post_merge_main (fun _ => goodEnv) ["intro.tex"] s0).summary =
      some ((processLoop (fun _ => goodEnv) (listTexFiles ["intro.tex"]) s0).1,
            (listTexFiles ["intro.tex"]).length) :=
  ⟨by decide, (c8_exit_code_amended (fun _ => goodEnv) ["intro.tex"] s0).2.1 (by decide)⟩

/-! ## C10 -/

theorem texOf_eq_main (lyxFile : String)
    (hsuffix : ∃ base : List Char, lyxFile.data = base ++ ".lyx".data) :
    (lyxFile = "main.lyx" ↔ texOf lyxFile = "main.tex") := by
  obtain ⟨base, hb⟩ := hsuffix
  constructor
  · intro h
    subst h
    decide
  · intro h
    have hlen4 : (".lyx".data).length = 4 := by decide
    have htake : lyxFile.data.take (lyxFile.data.length - 4) = base := by
      rw [hb, List.length_append, hlen4, Nat.add_sub_cancel, List.take_left]
    have h2 : (texOf lyxFile).data = "main.tex".data := by rw [h]
    have hdata : (texOf lyxFile).data =
        lyxFile.data.take (lyxFile.data.length - 4) ++ ".tex".data := rfl
    rw [hdata, htake] at h2
    have h3 : base ++ ".tex".data = "main".data ++ ".tex".data := by
      rw [h2]
      decide
    have hbase : base = "main".data := List.append_cancel_right h3
    have hd : lyxFile.data = "main.lyx".data := by
      rw [hb, hbase]
      decide
    obtain ⟨d⟩ := lyxFile
    simp only [] at hd
    rw [hd]

/-- C10: in the pre-commit hook the envelope strip is applied exactly to
main.lyx and to no other document, the inverse of the post-merge rule
(which strips every document except main.tex): for a document name with
the .lyx extension, being main.lyx coincides with its SourceForm being
main.tex, the pre-commit hook strips iff the document is main.lyx, and the
post-merge EXPORT step strips iff the SourceForm is not main.tex. -/
theorem c10_precommit_strip_inverse (env : Env) (lyxFile : String) (s : GitState)
    (hok : env.lyxExportOk = true)
    (hlog : Eff.gawkStrip (texOf lyxFile) ∉ s.log)
    (hsuffix : ∃ base : List Char, lyxFile.data = base ++ ".lyx".data) :
    (precommit_process_file env lyxFile s).1 = true ∧
    getTex (precommit_process_file env lyxFile s).2.texFiles (texOf lyxFile) =
      (if lyxFile = "main.lyx" then stripEnvelope env.exportLines else env.exportLines) ∧
    ((Eff.gawkStrip (texOf lyxFile) ∈ (precommit_process_file env lyxFile s).2.log) ↔
      lyxFile = "main.lyx") ∧
    (lyxFile = "main.lyx" ↔ texOf lyxFile = "main.tex") ∧
    (∀ t, exportPhase env (texOf lyxFile) s = .ok t →
      ((Eff.gawkStrip (texOf lyxFile) ∈ t.log) ↔ texOf lyxFile ≠ "main.tex")) := by
  have hiff := texOf_eq_main lyxFile hsuffix
  refine ⟨?_, ?_, ?_, hiff, ?_⟩
  · by_cases hm : lyxFile = "main.lyx" <;>
      simp [precommit_process_file, lyxExportCmd, hok, hm, applyStrip, pushLog]
  · by_cases hm : lyxFile = "main.lyx" <;>
      simp [precommit_process_file, lyxExportCmd, hok, hm, applyStrip, pushLog,
        getTex_setTex_self]
  · by_cases hm : lyxFile = "main.lyx" <;>
      simp [precommit_process_file, lyxExportCmd, hok, hm, applyStrip, pushLog, hlog]
  · intro t ht
    by_cases hf : texOf lyxFile = "main.tex"
    · simp [exportPhase, lyxExportCmd, hok, hf] at ht
      subst ht
      rw [hf] at hlog
      simp [pushLog, hf, hlog]
    · simp [exportPhase, lyxExportCmd, hok, hf] at ht
      subst ht
      simp [applyStrip, pushLog, hf, hlog]

/-- C10 witness at intro.lyx (not the aggregator: no strip). -/
theorem c10_precommit_strip_witness :
    goodEnv.lyxExportOk = true ∧
    ((precommit_process_file goodEnv "intro.lyx" s0).1 = true ∧
     getTex (precommit_process_file goodEnv "intro.lyx" s0).2.texFiles (texOf "intro.lyx") =
       (if ("intro.lyx" : String) = "main.lyx" then stripEnvelope goodEnv.exportLines
        else goodEnv.exportLines) ∧
     ((Eff.gawkStrip (texOf "intro.lyx") ∈
         (precommit_process_file goodEnv "intro.lyx" s0).2.log) ↔
       ("intro.lyx" : String) = "main.lyx") ∧
     (("intro.lyx" : String) = "main.lyx" ↔ texOf "intro.lyx" = "main.tex") ∧
     (∀ t, exportPhase goodEnv (texOf "intro.lyx") s0 = .ok t →
       ((Eff.gawkStrip (texOf "intro.lyx") ∈ t.log) ↔ texOf "intro.lyx" ≠ "main.tex"))) :=
  ⟨rfl, c10_precommit_strip_inverse goodEnv "intro.lyx" s0 rfl (by decide)
    ⟨"intro".data, by decide⟩⟩
